import Mathlib

/-!
Verification of the authz-proxy PEP/PDP core (src/authz-proxy/app/main.py)
against its natural-language specification.

The Python source is shallowly embedded: strings are Lean `String`s
manipulated through explicit character-list primitives mirroring the
Python `str` operations used by the source (`startswith`, `in`
substring test, `strip('/')`, `split('/')`, `replace`), dictionaries
holding the validated identity become a structure, and the Python
exception raised by `None in resource_path` (a `TypeError`) is made
explicit with `Except`, the enclosing `try/except` becoming the
handler that maps any error to `False`.
-/

namespace AuthzProxy

/-! ### Python string primitives on character lists -/

/-- Python `s.startswith(pre)`: `listStartsWith s pre` is true iff `pre` is a
leading run of `s`. -/
def listStartsWith : List Char → List Char → Bool
  | _, [] => true
  | [], _ :: _ => false
  | c :: cs, p :: ps => c == p && listStartsWith cs ps

/-- Python `s.startswith(pre)` on `String`. -/
def strStartsWith (s pre : String) : Bool :=
  listStartsWith s.data pre.data

/-- Python `needle in hay` (substring containment) on character lists. -/
def listContainsSub : List Char → List Char → Bool
  | [], needle => needle.isEmpty
  | c :: t, needle => listStartsWith (c :: t) needle || listContainsSub t needle

/-- Python `needle in hay` on `String`. -/
def strContains (hay needle : String) : Bool :=
  listContainsSub hay.data needle.data

/-- Python `s.split('/')` on character lists: splits at every `'/'`, keeping
empty parts; the result is never the empty list (Python `"".split('/') == ['']`). -/
def pySplitSlash : List Char → List (List Char)
  | [] => [[]]
  | c :: rest =>
    if c == '/' then [] :: pySplitSlash rest
    else
      match pySplitSlash rest with
      | [] => [[c]]
      | h :: t => (c :: h) :: t

/-- Removes the trailing run of `'/'` characters. -/
def dropTrailingSlash (l : List Char) : List Char :=
  (l.reverse.dropWhile (· == '/')).reverse

/-- Python `s.strip('/')`: removes the leading and trailing runs of `'/'`. -/
def pyStripSlash (l : List Char) : List Char :=
  dropTrailingSlash (l.dropWhile (· == '/'))

/-! ### Data model

`Identity` is the dictionary returned by `get_current_user`: the raw token,
`preferred_username` (possibly absent, i.e. Python `None`), `email`, the
realm roles, and `sub`. -/

structure Identity where
  token : String
  username : Option String
  email : Option String
  roles : List String
  sub : Option String

/-- The Python exception raised inside `evaluate`: `None in resource_path`
raises `TypeError` when the identity carries no username. -/
inductive PyError where
  | typeError
deriving DecidableEq

/-- Python `==` between the (possibly `None`) username and the (possibly
`None`) derived owner segment: `None == None` is `True`, `None == str` is
`False`, two strings compare by content. -/
def pyEqOptStr : Option String → Option String → Bool
  | none, none => true
  | some a, some b => a == b
  | _, _ => false

/-! ### PolicyDecisionPoint (src/authz-proxy/app/main.py lines 238-313) -/

/-- `PolicyDecisionPoint._determine_resource_type`.  The substring test
`username in resource_path` faults (`TypeError`) when `username` is `None`;
the `/common` test short-circuits before the username is touched. -/
def determineResourceType (resource_path : String) (username : Option String) :
    Except PyError String :=
  if strStartsWith resource_path "/common" || strStartsWith resource_path "common/" then
    .ok "common"
  else
    match username with
    | none => .error .typeError
    | some u =>
      if strContains resource_path u || strStartsWith resource_path ("/" ++ u) then
        .ok "user_private"
      else
        .ok "unknown"

/-- `PolicyDecisionPoint._evaluate_common_resource`. -/
def evaluateCommonResource (roles : List String) (action : String) : Bool :=
  if action == "read" then
    roles.contains "common-reader" || roles.contains "common-writer"
  else if action == "write" || action == "delete" then
    roles.contains "common-writer"
  else
    false

/-- The `resource_owner` computed by `_evaluate_user_resource`:
`resource_path.strip('/').split('/')[0] if path_parts else None`
(the Python list is never empty, so the `None` arm is dead but kept). -/
def pyOwnerOf (resource_path : String) : Option String :=
  ((pySplitSlash (pyStripSlash resource_path.data)).head?).map (fun l => ⟨l⟩)

/-- `PolicyDecisionPoint._evaluate_user_resource`: grants iff
`user['username'] == resource_owner` under Python equality. -/
def evaluateUserResource (username : Option String) (resource_path : String) : Bool :=
  pyEqOptStr username (pyOwnerOf resource_path)

/-- The body of `PolicyDecisionPoint.evaluate` inside the `try`: classify,
then admin shortcut, then dispatch on the resource type.  A fault in
classification propagates as `Except.error`. -/
def evaluateExc (user : Identity) (resource_path action : String) :
    Except PyError Bool :=
  match determineResourceType resource_path user.username with
  | .error e => .error e
  | .ok resource_type =>
    .ok (if user.roles.contains "admin" then
          true
        else if resource_type == "common" then
          evaluateCommonResource user.roles action
        else if resource_type == "user_private" then
          evaluateUserResource user.username resource_path
        else
          false)

/-- `PolicyDecisionPoint.evaluate`: the surrounding `try/except` maps any
internal fault to deny (`False`). -/
def evaluate (user : Identity) (resource_path action : String) : Bool :=
  match evaluateExc user resource_path action with
  | .ok b => b
  | .error _ => false

/-! ### Spec-side notion for the first-segment rule -/

/-- The first non-empty slash-separated segment of a path, `none` when the
path has no non-empty segment (empty or all slashes).  This is the
spec's wording for the owner of a private resource, stated independently
of the source. -/
def firstNonemptySeg (path : String) : Option String :=
  match path.data.dropWhile (· == '/') with
  | [] => none
  | c :: rest => some ⟨(c :: rest).takeWhile (fun x => !(x == '/'))⟩

/-! ### Decision cache and PolicyEnforcementPoint (lines 79-80, 164-211)

`policy_cache` is a `TTLCache`: an entry carries its insertion time and is
valid on lookup while `insertion time + ttl >= now` (cachetools treats an
entry as present iff `link.expires >= timer()`).  The cache state is an
association list, insertion prepends, lookup takes the first match. -/

/-- One cache state: entries `(key, decision, insertion time)`. -/
def CacheState : Type := List (String × Bool × Nat)

/-- The raw (expiry-blind) entry stored under a key, if any. -/
def cacheFindRaw (c : CacheState) (key : String) : Option (Bool × Nat) :=
  match List.find? (fun e => e.1 == key) c with
  | some e => some e.2
  | none => none

/-- `key in policy_cache` / `policy_cache[key]`: the stored decision, with an
entry older than the TTL behaving as absent. -/
def cacheLookup (c : CacheState) (ttl now : Nat) (key : String) : Option Bool :=
  match cacheFindRaw c key with
  | some (d, t) => if now ≤ t + ttl then some d else none
  | none => none

/-- `policy_cache[key] = decision` at time `now`. -/
def cacheInsert (c : CacheState) (key : String) (d : Bool) (now : Nat) : CacheState :=
  (key, d, now) :: c

/-- The f-string `f"{user['username']}:{resource_path}:{action}"` renders a
missing username as Python does: `None`. -/
def pyStrOfOpt : Option String → String
  | some s => s
  | none => "None"

/-- The cache-key composition used by `PolicyEnforcementPoint.enforce`. -/
def mkCacheKey (username resource_path action : String) : String :=
  username ++ ":" ++ resource_path ++ ":" ++ action

/-- The cache key `enforce` builds for a request. -/
def cacheKeyOf (user : Identity) (resource_path action : String) : String :=
  mkCacheKey (pyStrOfOpt user.username) resource_path action

/-- Result of one `enforce` call: the decision, the cache state after the
call, and whether the PDP was invoked (cache miss) or the decision was
served from the cache. -/
structure EnforceResult where
  decision : Bool
  cache : CacheState
  pdpInvoked : Bool

/-- `PolicyEnforcementPoint.enforce`: consult the cache first; on a miss,
invoke `PolicyDecisionPoint.evaluate` and store the decision. -/
def enforce (user : Identity) (resource_path action : String)
    (c : CacheState) (ttl now : Nat) : EnforceResult :=
  let key := cacheKeyOf user resource_path action
  match cacheLookup c ttl now key with
  | some d => ⟨d, c, false⟩
  | none =>
    let d := evaluate user resource_path action
    ⟨d, cacheInsert c key d now, true⟩

/-! ### Token verification (`get_current_user`, lines 111-161)

Signature verification (`jwt.decode` with the Keycloak public key) is an
external cryptographic collaborator; it is abstracted as a parameter
mapping the extracted token string to either the decoded claims or an
error (expired signature / invalid token). -/

/-- The claims `get_current_user` reads from a successfully decoded token;
each may be absent.  `realm_access_roles` is the nested
`realm_access.roles` list, `none` when `realm_access` (or its `roles`
field) is missing. -/
structure DecodedToken where
  preferred_username : Option String
  email : Option String
  sub : Option String
  realm_access_roles : Option (List String)

/-- Failure modes of `jwt.decode`: `ExpiredSignatureError` or `JWTError`. -/
inductive TokenError where
  | expired
  | invalid
deriving DecidableEq

/-- The character list of the pattern `"Bearer "`. -/
def bearerChars : List Char := "Bearer ".data

/-- Python `authorization.replace("Bearer ", "")`: removes every
(non-overlapping, left-to-right) occurrence of `"Bearer "`.  The fuel is
the length of the list; each step consumes at least one character, so the
fuel never runs out on a run started with `fuel = length`. -/
def replaceBearerAux : Nat → List Char → List Char
  | _, [] => []
  | 0, l => l
  | fuel + 1, c :: rest =>
    if listStartsWith (c :: rest) bearerChars then
      replaceBearerAux fuel (rest.drop 6)
    else
      c :: replaceBearerAux fuel rest

/-- `authorization.replace("Bearer ", "")` on `String`. -/
def stripBearer (s : String) : String :=
  ⟨replaceBearerAux s.data.length s.data⟩

/-- `get_current_user`: 401 when the header is absent; otherwise strip
`"Bearer "` occurrences, decode, and on success assemble the identity
dictionary (roles default to the empty list when the claim is missing).
Every failure maps to HTTP status 401. -/
def getCurrentUser (decodeToken : String → Except TokenError DecodedToken)
    (authorization : Option String) : Except Nat Identity :=
  match authorization with
  | none => .error 401
  | some auth =>
    let token := stripBearer auth
    match decodeToken token with
    | .error _ => .error 401
    | .ok d =>
      .ok { token := token
            username := d.preferred_username
            email := d.email
            roles := d.realm_access_roles.getD []
            sub := d.sub }

/-! ### Helper lemmas on the string primitives -/

theorem strExt {s t : String} (h : s.data = t.data) : s = t :=
  congrArg String.mk h

theorem strDataAppend (s t : String) : (s ++ t).data = s.data ++ t.data := rfl

theorem listStartsWith_append_self (n m : List Char) :
    listStartsWith (n ++ m) n = true := by
  induction n with
  | nil => simp [listStartsWith]
  | cons c t ih => simp [listStartsWith, ih]

theorem listContainsSub_of_parts (pre needle post : List Char) :
    listContainsSub (pre ++ (needle ++ post)) needle = true := by
  induction pre with
  | nil =>
    cases needle with
    | nil =>
      cases post with
      | nil => rfl
      | cons c t => simp [listContainsSub, listStartsWith]
    | cons c t =>
      have h := listStartsWith_append_self (c :: t) post
      rw [List.cons_append] at h
      simp [listContainsSub, h]
  | cons c t ih =>
    simp [listContainsSub, ih]

theorem takeWhile_nil_of_all (q : Char → Bool) (s : List Char)
    (h : ∀ x ∈ s, q x = false) : s.takeWhile q = [] := by
  cases s with
  | nil => rfl
  | cons c t => simp [List.takeWhile_cons, h c (List.mem_cons_self c t)]

theorem takeWhile_append_of_nil (q : Char → Bool) (a s : List Char)
    (h : s.takeWhile q = []) : (a ++ s).takeWhile q = a.takeWhile q := by
  induction a with
  | nil => simpa using h
  | cons c t ih =>
    cases hc : q c with
    | true => simp [List.takeWhile_cons, hc, ih]
    | false => simp [List.takeWhile_cons, hc]

theorem takeWhile_dropTrailingSlash (l : List Char) :
    (dropTrailingSlash l).takeWhile (fun x => !(x == '/'))
      = l.takeWhile (fun x => !(x == '/')) := by
  have hdecomp : l = dropTrailingSlash l ++ (l.reverse.takeWhile (· == '/')).reverse := by
    unfold dropTrailingSlash
    rw [← List.reverse_append, List.takeWhile_append_dropWhile, List.reverse_reverse]
  have hnil : ((l.reverse.takeWhile (· == '/')).reverse).takeWhile (fun x => !(x == '/')) = [] := by
    apply takeWhile_nil_of_all
    intro x hx
    rw [List.mem_reverse] at hx
    have := List.mem_takeWhile_imp hx
    simp at this
    simp [this]
  conv_rhs => rw [hdecomp]
  rw [takeWhile_append_of_nil _ _ _ hnil]

theorem pySplitSlash_head (m : List Char) :
    (pySplitSlash m).head? = some (m.takeWhile (fun x => !(x == '/'))) := by
  induction m with
  | nil => rfl
  | cons c rest ih =>
    cases hc : c == '/' with
    | true => simp [pySplitSlash, hc, List.takeWhile_cons]
    | false =>
      cases hsp : pySplitSlash rest with
      | nil => rw [hsp] at ih; simp at ih
      | cons h t =>
        rw [hsp] at ih
        simp at ih
        simp [pySplitSlash, hc, hsp, List.takeWhile_cons, ih]

theorem pyOwnerOf_eq (path : String) :
    pyOwnerOf path
      = some ⟨(path.data.dropWhile (· == '/')).takeWhile (fun x => !(x == '/'))⟩ := by
  unfold pyOwnerOf pyStripSlash
  rw [pySplitSlash_head, takeWhile_dropTrailingSlash]
  rfl

/-! ### Evaluation lemmas for the PDP -/

theorem evaluate_common (u : Identity) (p a : String)
    (hc : strStartsWith p "/common" = true ∨ strStartsWith p "common/" = true)
    (hadm : u.roles.contains "admin" = false) :
    evaluate u p a = evaluateCommonResource u.roles a := by
  have hadm' : "admin" ∉ u.roles := by simpa using hadm
  unfold evaluate evaluateExc determineResourceType
  rcases hc with h | h <;> rw [h] <;> simp [hadm']

theorem evaluate_noncommon (u : Identity) (name : String) (p a : String)
    (hn : u.username = some name)
    (hadm : u.roles.contains "admin" = false)
    (h1 : strStartsWith p "/common" = false) (h2 : strStartsWith p "common/" = false) :
    evaluate u p a =
      if strContains p name || strStartsWith p ("/" ++ name) then
        evaluateUserResource (some name) p
      else false := by
  have hadm' : "admin" ∉ u.roles := by simpa using hadm
  unfold evaluate evaluateExc determineResourceType
  rw [hn, h1, h2]
  cases hcl : (strContains p name || strStartsWith p ("/" ++ name)) <;>
    simp [hcl, hadm']

theorem evaluate_admin (u : Identity) (s : String) (p a : String)
    (hn : u.username = some s)
    (hadm : u.roles.contains "admin" = true) :
    evaluate u p a = true := by
  have hadm' : "admin" ∈ u.roles := by simpa using hadm
  unfold evaluate evaluateExc determineResourceType
  rw [hn]
  by_cases h : (strStartsWith p "/common" || strStartsWith p "common/") = true
  · simp [h, hadm']
  · by_cases h2 : (strContains p s || strStartsWith p ("/" ++ s)) = true
    · simp [h, h2, hadm']
    · simp [h, h2, hadm']

theorem cacheFindRaw_insert (c : CacheState) (k : String) (d : Bool) (now : Nat) :
    cacheFindRaw (cacheInsert c k d now) k = some (d, now) := by
  unfold cacheFindRaw cacheInsert
  rw [List.find?_cons_of_pos _ (by simp)]

theorem cacheLookup_insert (c : CacheState) (k : String) (d : Bool) (ttl now : Nat) :
    cacheLookup (cacheInsert c k d now) ttl now k = some d := by
  unfold cacheLookup
  rw [cacheFindRaw_insert]
  exact if_pos (Nat.le_add_right now ttl)

/-! ### Claim theorems -/

/-- Claim C1, amended: for every identity whose username is a NON-EMPTY string
and whose roles do not include "admin", and for every resource path that does
not start with "/common" or "common/", `PolicyDecisionPoint.evaluate` grants
if and only if the first non-empty slash-separated segment of the path equals
the username, independent of the action.  (The amendment excludes the empty
username, for which the code grants exactly on paths with no non-empty
segment, where the derived owner segment is the empty string.) -/
theorem c1_first_segment_rule (u : Identity) (name : String)
    (hn : u.username = some name) (hne : name ≠ "")
    (hadm : u.roles.contains "admin" = false)
    (p a : String)
    (h1 : strStartsWith p "/common" = false) (h2 : strStartsWith p "common/" = false) :
    evaluate u p a = true ↔ firstNonemptySeg p = some name := by
  rw [evaluate_noncommon u name p a hn hadm h1 h2]
  have howner := pyOwnerOf_eq p
  have hnd : name.data ≠ [] := by
    intro hcon
    exact hne (strExt (by rw [hcon]))
  constructor
  · intro hev
    by_cases hcl : (strContains p name || strStartsWith p ("/" ++ name)) = true
    · rw [if_pos hcl] at hev
      unfold evaluateUserResource pyEqOptStr at hev
      rw [howner] at hev
      have hname : name
          = ⟨(p.data.dropWhile (· == '/')).takeWhile (fun x => !(x == '/'))⟩ :=
        eq_of_beq hev
      cases hdw : p.data.dropWhile (· == '/') with
      | nil =>
        exfalso
        apply hnd
        rw [hdw] at hname
        exact congrArg String.data hname
      | cons c rest =>
        rw [hdw] at hname
        unfold firstNonemptySeg
        rw [hdw]
        exact congrArg some hname.symm
    · rw [if_neg hcl] at hev
      simp at hev
  · intro hseg
    unfold firstNonemptySeg at hseg
    cases hdw : p.data.dropWhile (· == '/') with
    | nil =>
      rw [hdw] at hseg
      simp at hseg
    | cons c rest =>
      rw [hdw] at hseg
      simp at hseg
      have hname : name = ⟨(c :: rest).takeWhile (fun x => !(x == '/'))⟩ := hseg.symm
      have hdata : name.data = (c :: rest).takeWhile (fun x => !(x == '/')) :=
        congrArg String.data hname
      have hdecomp : p.data
          = p.data.takeWhile (· == '/')
            ++ ((c :: rest).takeWhile (fun x => !(x == '/'))
                ++ (c :: rest).dropWhile (fun x => !(x == '/'))) := by
        rw [List.takeWhile_append_dropWhile, ← hdw, List.takeWhile_append_dropWhile]
      have hcl : strContains p name = true := by
        unfold strContains
        rw [hdata, hdecomp]
        exact listContainsSub_of_parts _ _ _
      have hcond : (strContains p name || strStartsWith p ("/" ++ name)) = true := by
        rw [hcl]
        rfl
      rw [if_pos hcond]
      unfold evaluateUserResource pyEqOptStr
      rw [howner, hdw, ← hname]
      simp

/-- Claim C1 counterexample: for the identity with the EMPTY-string username
and no roles, the path "/" grants (the derived owner is the empty string),
yet "/" has no non-empty slash-separated segment, so the claimed
iff fails at this input. -/
theorem c1_counterexample :
    evaluate ⟨"", some "", none, [], none⟩ "/" "read" = true
      ∧ firstNonemptySeg "/" ≠ some "" := by
  constructor
  · decide
  · decide

/-- Witness for C1: a concrete non-admin identity granted on its own path. -/
theorem c1_witness :
    evaluate ⟨"", some "alice", none, [], none⟩ "/alice/data" "write" = true :=
  (c1_first_segment_rule ⟨"", some "alice", none, [], none⟩ "alice" rfl (by decide)
    rfl "/alice/data" "write" rfl rfl).mpr rfl

/-- Claim C2: for every identity without the "admin" role and every resource
path starting with "/common" or "common/", `evaluate` grants "read" iff the
roles contain "common-reader" or "common-writer", grants "write" or "delete"
iff the roles contain "common-writer", and denies any other action. -/
theorem c2_common_role_rules (u : Identity) (p a : String)
    (hadm : u.roles.contains "admin" = false)
    (hc : strStartsWith p "/common" = true ∨ strStartsWith p "common/" = true) :
    evaluate u p a = true ↔
      ((a = "read" ∧ (u.roles.contains "common-reader" = true
          ∨ u.roles.contains "common-writer" = true))
        ∨ ((a = "write" ∨ a = "delete")
            ∧ u.roles.contains "common-writer" = true)) := by
  rw [evaluate_common u p a hc hadm]
  unfold evaluateCommonResource
  by_cases hr : a = "read"
  · subst hr
    simp
  · by_cases hw : a = "write"
    · subst hw
      simp
    · by_cases hd : a = "delete"
      · subst hd
        simp
      · have b1 : (a == "read") = false := by simp [hr]
        have b2 : (a == "write") = false := by simp [hw]
        have b3 : (a == "delete") = false := by simp [hd]
        simp [b1, b2, b3, hr, hw, hd]

/-- Witness for C2: a common-writer gets write access under "/common". -/
theorem c2_witness :
    evaluate ⟨"", some "user1", none, ["common-writer"], none⟩
      "/common/data/file.txt" "write" = true :=
  (c2_common_role_rules ⟨"", some "user1", none, ["common-writer"], none⟩
      "/common/data/file.txt" "write" rfl (Or.inl rfl)).mpr
    (Or.inr ⟨Or.inl rfl, rfl⟩)

/-- Claim C3: any identity whose roles contain "admin" and whose username is
a string is granted by `evaluate` for every path (including ones that
classify as unknown) and every action; consequently `enforce` grants on a
cache miss. -/
theorem c3_admin_full_access (u : Identity) (s : String) (p a : String)
    (hn : u.username = some s)
    (hadm : u.roles.contains "admin" = true) :
    evaluate u p a = true ∧
      ∀ (c : CacheState) (ttl now : Nat),
        cacheLookup c ttl now (cacheKeyOf u p a) = none →
        (enforce u p a c ttl now).decision = true := by
  have hev := evaluate_admin u s p a hn hadm
  refine ⟨hev, ?_⟩
  intro c ttl now hl
  simp [enforce, hl, hev]

/-- Witness for C3: an admin is granted an arbitrary action on a path that
classifies as unknown, both by the PDP and by `enforce` on an empty cache. -/
theorem c3_witness :
    evaluate ⟨"", some "root", none, ["admin"], none⟩ "/weird" "frobnicate" = true
      ∧ (enforce ⟨"", some "root", none, ["admin"], none⟩ "/weird" "frobnicate"
          [] 300 0).decision = true :=
  ⟨(c3_admin_full_access ⟨"", some "root", none, ["admin"], none⟩ "root"
      "/weird" "frobnicate" rfl rfl).1,
   (c3_admin_full_access ⟨"", some "root", none, ["admin"], none⟩ "root"
      "/weird" "frobnicate" rfl rfl).2 [] 300 0 rfl⟩

/-- Claim C4: `evaluate` is total and fail-closed: every input yields an
explicit boolean, and whenever the inner evaluation faults (an
`Except.error`, e.g. the `TypeError` from a missing username), the result
is deny (`false`) rather than a propagated exception. -/
theorem c4_total_fail_closed (u : Identity) (p a : String) :
    (evaluate u p a = true ∨ evaluate u p a = false) ∧
      ∀ e, evaluateExc u p a = .error e → evaluate u p a = false := by
  constructor
  · cases h : evaluate u p a
    · exact Or.inr rfl
    · exact Or.inl rfl
  · intro e he
    unfold evaluate
    rw [he]

/-- Witness for C4: the missing-username fault is mapped to deny. -/
theorem c4_witness :
    evaluateExc ⟨"", none, none, ["user"], none⟩ "/secret/file" "read"
        = .error .typeError
      ∧ evaluate ⟨"", none, none, ["user"], none⟩ "/secret/file" "read" = false :=
  ⟨rfl,
   (c4_total_fail_closed ⟨"", none, none, ["user"], none⟩ "/secret/file" "read").2
     PyError.typeError rfl⟩

/-- Claim C5: for a fixed (identity, path, action), calling `enforce` twice
at the same instant (no TTL expiry, eviction or clear in between) returns
the identical decision both times, and the second call is served from the
cache without invoking the PDP. -/
theorem c5_enforce_idempotent (u : Identity) (p a : String)
    (c : CacheState) (ttl now : Nat) :
    (enforce u p a (enforce u p a c ttl now).cache ttl now).decision
        = (enforce u p a c ttl now).decision
      ∧ (enforce u p a (enforce u p a c ttl now).cache ttl now).pdpInvoked = false := by
  cases hl : cacheLookup c ttl now (cacheKeyOf u p a) with
  | some d => constructor <;> simp [enforce, hl]
  | none =>
    have hsecond := cacheLookup_insert c (cacheKeyOf u p a)
      (evaluate u p a) ttl now
    constructor <;> simp [enforce, hl, hsecond]

/-- Claim C6: a cache entry whose insertion time lies more than the TTL in
the past behaves as absent — `enforce` does not return the stale decision
but re-invokes the PDP and stores a fresh entry timestamped `now`. -/
theorem c6_ttl_expiry (u : Identity) (p a : String)
    (c : CacheState) (ttl now : Nat) (b : Bool) (t : Nat)
    (hfind : cacheFindRaw c (cacheKeyOf u p a) = some (b, t))
    (hexp : t + ttl < now) :
    (enforce u p a c ttl now).pdpInvoked = true
      ∧ (enforce u p a c ttl now).decision = evaluate u p a
      ∧ cacheFindRaw (enforce u p a c ttl now).cache (cacheKeyOf u p a)
          = some (evaluate u p a, now) := by
  have hl : cacheLookup c ttl now (cacheKeyOf u p a) = none := by
    unfold cacheLookup
    rw [hfind]
    exact if_neg (by omega)
  have hins := cacheFindRaw_insert c (cacheKeyOf u p a) (evaluate u p a) now
  refine ⟨?_, ?_, ?_⟩ <;> simp [enforce, hl, hins]

/-- Witness for C6: a stale deny cached for an admin is ignored; the PDP is
re-invoked, grants, and the fresh grant is stored at the new time. -/
theorem c6_witness :
    (enforce ⟨"", some "root", none, ["admin"], none⟩ "/x" "read"
        [("root:/x:read", false, 0)] 300 301).pdpInvoked = true
      ∧ (enforce ⟨"", some "root", none, ["admin"], none⟩ "/x" "read"
          [("root:/x:read", false, 0)] 300 301).decision = true
      ∧ cacheFindRaw (enforce ⟨"", some "root", none, ["admin"], none⟩ "/x" "read"
          [("root:/x:read", false, 0)] 300 301).cache "root:/x:read"
          = some (true, 301) :=
  c6_ttl_expiry ⟨"", some "root", none, ["admin"], none⟩ "/x" "read"
    [("root:/x:read", false, 0)] 300 301 false 0 rfl (by omega)

/-- Splitting a separator-delimited concatenation at the first separator is
unambiguous when the left parts are separator-free. -/
theorem colon_split (l1 : List Char) : ∀ (m1 l2 m2 : List Char),
    ':' ∉ l1 → ':' ∉ m1 →
    l1 ++ ':' :: l2 = m1 ++ ':' :: m2 → l1 = m1 ∧ l2 = m2 := by
  induction l1 with
  | nil =>
    intro m1 l2 m2 _ hm h
    cases m1 with
    | nil => simpa using h
    | cons c m1 =>
      simp at h
      obtain ⟨h1, _⟩ := h
      subst h1
      exact absurd (List.mem_cons_self _ _) hm
  | cons x l1 ih =>
    intro m1 l2 m2 hl hm h
    cases m1 with
    | nil =>
      simp at h
      obtain ⟨h1, _⟩ := h
      subst h1
      exact absurd (List.mem_cons_self _ _) hl
    | cons y m1 =>
      simp at h
      obtain ⟨hxy, hrest⟩ := h
      obtain ⟨e1, e2⟩ := ih m1 l2 m2
        (fun hmem => hl (List.mem_cons_of_mem x hmem))
        (fun hmem => hm (List.mem_cons_of_mem y hmem)) hrest
      exact ⟨by rw [hxy, e1], e2⟩

theorem mkCacheKey_data (u p a : String) :
    (mkCacheKey u p a).data = u.data ++ ':' :: (p.data ++ ':' :: a.data) := by
  unfold mkCacheKey
  rw [strDataAppend, strDataAppend, strDataAppend, strDataAppend]
  have hc : (":" : String).data = [':'] := rfl
  rw [hc]
  simp [List.append_assoc]

/-- Claim C7 counterexample: the ":" separator can occur inside a component,
so two distinct (username, path, action) triples compose to the same cache
key. -/
theorem c7_counterexample :
    mkCacheKey "a" "b:c" "read" = mkCacheKey "a:b" "c" "read"
      ∧ ¬(("a" : String) = "a:b" ∧ ("b:c" : String) = "c"
            ∧ ("read" : String) = "read") := by
  constructor
  · rfl
  · decide

/-- Claim C7, amended: the cache-key composition `username:path:action` is
NOT injective in general (the ":" separator may occur unescaped inside a
component); it is injective when restricted to triples whose components are
colon-free. -/
theorem c7_injective_colon_free (u p a u2 p2 a2 : String)
    (hu : ':' ∉ u.data) (hu2 : ':' ∉ u2.data)
    (hp : ':' ∉ p.data) (hp2 : ':' ∉ p2.data)
    (ha : ':' ∉ a.data) (ha2 : ':' ∉ a2.data)
    (hk : mkCacheKey u p a = mkCacheKey u2 p2 a2) :
    u = u2 ∧ p = p2 ∧ a = a2 := by
  have hd := congrArg String.data hk
  rw [mkCacheKey_data, mkCacheKey_data] at hd
  obtain ⟨h1, h2⟩ := colon_split u.data u2.data _ _ hu hu2 hd
  obtain ⟨h3, h4⟩ := colon_split p.data p2.data _ _ hp hp2 h2
  exact ⟨strExt h1, strExt h3, strExt h4⟩

/-- Witness for C7's amended statement: colon-free components decompose
uniquely. -/
theorem c7_witness :
    ("alice" : String) = "alice" ∧ ("/alice/f" : String) = "/alice/f"
      ∧ ("read" : String) = "read" :=
  c7_injective_colon_free "alice" "/alice/f" "read" "alice" "/alice/f" "read"
    (by decide) (by decide) (by decide) (by decide) (by decide) (by decide) rfl

/-- A concrete decode oracle for exercising `getCurrentUser`: exactly the
token "rawtoken" verifies. -/
def demoDecode : String → Except TokenError DecodedToken := fun s =>
  if s == "rawtoken" then .ok ⟨some "alice", none, none, some ["user"]⟩
  else .error .invalid

/-- Claim C8 counterexample: a header value lacking the "Bearer " prefix is
NOT rejected for its syntax — when the remaining string verifies, the
request is authenticated (the code strips occurrences of "Bearer " and then
only the decode step decides). -/
theorem c8_counterexample :
    strStartsWith "rawtoken" "Bearer " = false
      ∧ getCurrentUser demoDecode (some "rawtoken")
          = .ok ⟨"rawtoken", some "alice", none, ["user"], none⟩ := by
  constructor
  · rfl
  · rfl

/-- Claim C8, amended: token verification fails with 401 when the
Authorization header is absent, or when the token obtained by deleting all
occurrences of "Bearer " from the header value fails decoding (invalid or
unverifiable signature, or expiry).  A header lacking the "Bearer " prefix
is not rejected per se: if the remaining string verifies, authentication
succeeds. -/
theorem c8_unauthenticated_on_failure
    (decodeToken : String → Except TokenError DecodedToken)
    (hdr : Option String)
    (hfail : hdr = none
      ∨ ∃ h, hdr = some h ∧ ∃ e, decodeToken (stripBearer h) = .error e) :
    getCurrentUser decodeToken hdr = .error 401 := by
  rcases hfail with h | ⟨h, rfl, e, he⟩
  · rw [h]
    rfl
  · simp [getCurrentUser, he]

/-- Witness for C8's amended statement: a bearer-shaped header whose token
does not verify yields 401. -/
theorem c8_witness :
    getCurrentUser demoDecode (some "Bearer xyz") = .error 401 :=
  c8_unauthenticated_on_failure demoDecode (some "Bearer xyz")
    (Or.inr ⟨"Bearer xyz", rfl, TokenError.invalid, rfl⟩)

/-- Claim C9: noninterference of the non-authorization identity fields —
two identities agreeing on username and roles (but possibly differing in
token, email or sub) receive the same decision from `evaluate`, and from
`enforce` started in equal cache states. -/
theorem c9_noninterference (u1 u2 : Identity)
    (hn : u1.username = u2.username) (hr : u1.roles = u2.roles)
    (p a : String) :
    evaluate u1 p a = evaluate u2 p a
      ∧ ∀ (c : CacheState) (ttl now : Nat),
          enforce u1 p a c ttl now = enforce u2 p a c ttl now := by
  cases u1 with
  | mk t1 un1 e1 r1 s1 =>
    cases u2 with
    | mk t2 un2 e2 r2 s2 =>
      simp only at hn hr
      subst hn
      subst hr
      exact ⟨rfl, fun _ _ _ => rfl⟩

/-- Witness for C9: identities differing only in token, email and sub get
the same decision. -/
theorem c9_witness :
    evaluate ⟨"tok1", some "alice", some "alice@host", ["user"], some "s1"⟩
        "/alice/f" "read"
      = evaluate ⟨"tok2", some "alice", none, ["user"], some "s2"⟩
        "/alice/f" "read" :=
  (c9_noninterference ⟨"tok1", some "alice", some "alice@host", ["user"], some "s1"⟩
    ⟨"tok2", some "alice", none, ["user"], some "s2"⟩ rfl rfl "/alice/f" "read").1

/-- A decode oracle for the C10 witness: the single verifying token carries
no preferred_username claim. -/
def demoDecodeNoUsername : String → Except TokenError DecodedToken := fun s =>
  if s == "hdrtoken" then .ok ⟨none, none, none, some ["common-reader"]⟩
  else .error .invalid

/-- Claim C10: a validated token with no preferred_username claim is not
rejected at verification (the identity is produced with username `none`);
for a non-admin identity with no username, every path not under "/common"
 or "common/" is denied via the caught classification fault (never raised to
the caller), while common paths are still decided by the role rules. -/
theorem c10_missing_username (u : Identity) (p a : String)
    (hn : u.username = none)
    (hadm : u.roles.contains "admin" = false) :
    (∀ (decodeToken : String → Except TokenError DecodedToken) (hdr : String)
        (d : DecodedToken),
        decodeToken (stripBearer hdr) = .ok d → d.preferred_username = none →
        getCurrentUser decodeToken (some hdr)
          = .ok ⟨stripBearer hdr, none, d.email, d.realm_access_roles.getD [], d.sub⟩)
      ∧ (strStartsWith p "/common" = false → strStartsWith p "common/" = false →
          evaluateExc u p a = .error .typeError ∧ evaluate u p a = false)
      ∧ ((strStartsWith p "/common" = true ∨ strStartsWith p "common/" = true) →
          evaluate u p a = evaluateCommonResource u.roles a) := by
  refine ⟨?_, ?_, ?_⟩
  · intro decodeToken hdr d hdec hpu
    simp [getCurrentUser, hdec, hpu]
  · intro h1 h2
    have hexc : evaluateExc u p a = .error .typeError := by
      unfold evaluateExc determineResourceType
      rw [hn, h1, h2]
      simp
    refine ⟨hexc, ?_⟩
    unfold evaluate
    rw [hexc]
  · intro hc
    exact evaluate_common u p a hc hadm

/-- Witness for C10: a username-less token authenticates, its identity is
denied on a private path, and still follows the role rules on a common
path. -/
theorem c10_witness :
    getCurrentUser demoDecodeNoUsername (some "hdrtoken")
        = .ok ⟨"hdrtoken", none, none, ["common-reader"], none⟩
      ∧ evaluate ⟨"", none, none, ["common-reader"], none⟩ "/alice/f" "read" = false
      ∧ evaluate ⟨"", none, none, ["common-reader"], none⟩ "/common/x" "read"
          = evaluateCommonResource ["common-reader"] "read" :=
  ⟨(c10_missing_username ⟨"", none, none, ["common-reader"], none⟩ "/alice/f" "read"
      rfl rfl).1 demoDecodeNoUsername "hdrtoken"
      ⟨none, none, none, some ["common-reader"]⟩ rfl rfl,
   ((c10_missing_username ⟨"", none, none, ["common-reader"], none⟩ "/alice/f" "read"
      rfl rfl).2.1 rfl rfl).2,
   (c10_missing_username ⟨"", none, none, ["common-reader"], none⟩ "/common/x" "read"
      rfl rfl).2.2 (Or.inl rfl)⟩

end AuthzProxy
